import Mathlib

/-!
Shallow embedding of the fixed-timestep game-loop driver from
`src/lib/game-loop/src/lib.rs` (crate `game_loop`).

Modelling conventions:

* `Duration` (Rust `std::time::Duration`) is modelled as a natural number of
  nanoseconds.  `Instant` (a monotonic timestamp) is likewise an abstract
  natural number of nanoseconds; `Instant::elapsed` becomes truncated
  subtraction `now - earlier`, which is exact because the clock is monotonic.
* A consumer (a Rust value implementing `Updater + Renderer`) is a record of
  two state transformers.  A Rust method `fn f(&mut self) -> Result<(), E>`
  becomes `σ → Except E Unit × σ`: it returns both the result and the
  (possibly mutated) consumer state, also on the error path, exactly as a
  `&mut self` receiver does.
* The `remainder` accessor computes `accumulated_time / update_interval` as an
  exact rational (`ℚ`); the Rust code computes the same mathematical ratio via
  `as_secs_f32(acc) / as_secs_f32(interval)`.  Its `debug_assert!` panic is
  modelled by returning `none`.
* The internal `State` phase machine (`Idle → Updating → Rendering`) of
  `GameLoop::tick` is an implementation-local control structure: the `Idle`
  arm adds the elapsed time once, the `Updating` arm is a loop draining the
  accumulator, and the `Rendering` arm renders once and returns.  The
  embedding flattens it into exactly that control flow: elapsed-time addition,
  then `drain`, then one render.
-/

/-- The constant `const NANOSECONDS_PER_SECOND: u32 = 1_000_000_000;`. -/
def NANOSECONDS_PER_SECOND : ℕ := 1000000000

/-- A consumer value implementing the `Updater` and `Renderer` traits:
`update(&mut self) -> Result<(), E_u>` and
`render(&mut self, remainder: f32) -> Result<(), E_r>`. -/
structure Consumer (σ εu εr : Type) where
  update : σ → Except εu Unit × σ
  render : σ → ℚ → Except εr Unit × σ

/-- The driver state of `struct GameLoop<T>`: the owned consumer value
(`state`), the fixed `update_interval`, the optional start timestamp of the
previous tick (`previous_tick`, reduced to its `started_at` field since the
phase marker of a completed tick is always `Idle`), and `accumulated_time`. -/
structure GameLoop (σ : Type) where
  state : σ
  update_interval : ℕ
  previous_tick : Option ℕ
  accumulated_time : ℕ
deriving DecidableEq

/-- The type `enum Error<T> { Update(..), Render(..) }`: the step error, wrapping the
consumer-supplied error value unchanged. -/
inductive Error (εu εr : Type) where
  | update : εu → Error εu εr
  | render : εr → Error εu εr
deriving DecidableEq

/-- The constructor `GameLoop::new`: fixes `updates_per_second = 100`, hence
`update_interval = 1_000_000_000 / 100` nanoseconds; starts with no previous
tick and an empty accumulator. -/
def GameLoop.new {σ : Type} (state : σ) : GameLoop σ :=
  let updates_per_second := 100
  { state := state
    previous_tick := none
    accumulated_time := 0
    update_interval := NANOSECONDS_PER_SECOND / updates_per_second }

/-- The test-support mutator `GameLoop::add_accumulated_time`:
`self.accumulated_time += add`. -/
def GameLoop.add_accumulated_time {σ : Type} (g : GameLoop σ) (add : ℕ) :
    GameLoop σ :=
  { g with accumulated_time := g.accumulated_time + add }

/-- The exact rational value of
`as_secs_f32(accumulated_time) / as_secs_f32(update_interval)`
(both operands are `total nanoseconds / 10^9`, so the ratio is
`accumulated_time / update_interval`). -/
def remQ (acc interval : ℕ) : ℚ := (acc : ℚ) / (interval : ℚ)

/-- The accessor `GameLoop::remainder`: returns the interpolation fraction;
`debug_assert!((remainder >= 0.0) && (remainder < 1.0))` panics on an invalid
state, modelled as `none`. -/
def GameLoop.remainder {σ : Type} (g : GameLoop σ) : Option ℚ :=
  if 0 ≤ remQ g.accumulated_time g.update_interval ∧
      remQ g.accumulated_time g.update_interval < 1 then
    some (remQ g.accumulated_time g.update_interval)
  else
    none

/-- The elapsed time added in the `Idle` arm of `tick`:
`previous_tick.started_at.elapsed()` when a previous tick exists, nothing on
the very first tick. -/
def elapsedSince : Option ℕ → ℕ → ℕ
  | none, _ => 0
  | some prev, now => now - prev

/-- The `Updating` arm of `tick`, iterated: while `acc ≥ interval`, run the
consumer's update; on error return immediately (with `acc` NOT decremented for
the failing iteration); on success subtract one `interval` and repeat.  The
iteration count is bounded by `acc / interval` because every successful
iteration removes `interval` from `acc`, so running the loop body with that
much fuel is exactly the Rust `while`-style loop (for `interval > 0`; at
`interval = 0` the Rust loop would never terminate, a state unreachable from
`GameLoop::new`). -/
def drainAux {σ εu εr : Type} (c : Consumer σ εu εr) (interval : ℕ) :
    ℕ → σ → ℕ → Except εu Unit × σ × ℕ
  | 0, s, acc => (Except.ok (), s, acc)
  | fuel + 1, s, acc =>
    if interval ≤ acc then
      match c.update s with
      | (Except.error e, s') => (Except.error e, s', acc)
      | (Except.ok _, s') => drainAux c interval fuel s' (acc - interval)
    else
      (Except.ok (), s, acc)

/-- The full drain loop of `tick`, with its exact fuel. -/
def drain {σ εu εr : Type} (c : Consumer σ εu εr) (s : σ) (interval acc : ℕ) :
    Except εu Unit × σ × ℕ :=
  drainAux c interval (acc / interval) s acc

/-- The step operation `GameLoop::tick`, parametrised by the current timestamp `now` (the
`started_at` of the fresh `Tick`): add the elapsed time since the previous
tick, drain the accumulator through the consumer's update (propagating a
failure as `Error.update`), then render once with the remainder (propagating a
failure as `Error.render`); on success record `now` as the new
`previous_tick`.  After the drain the accumulator is below the interval, so
the `debug_assert!` inside the `remainder()` call on the render path cannot
fire; the embedding passes the ratio `remQ` directly. -/
def GameLoop.tick {σ εu εr : Type} (c : Consumer σ εu εr) (g : GameLoop σ)
    (now : ℕ) : Except (Error εu εr) Unit × GameLoop σ :=
  match drain c g.state g.update_interval
      (g.accumulated_time + elapsedSince g.previous_tick now) with
  | (Except.error e, s', acc') =>
    (Except.error (Error.update e), { g with state := s', accumulated_time := acc' })
  | (Except.ok _, s', acc') =>
    match c.render s' (remQ acc' g.update_interval) with
    | (Except.error e, s'') =>
      (Except.error (Error.render e), { g with state := s'', accumulated_time := acc' })
    | (Except.ok _, s'') =>
      (Except.ok (), { g with state := s'', accumulated_time := acc',
                              previous_tick := some now })

/-- Folding a sequence of `add_accumulated_time` calls. -/
def addMany {σ : Type} (g : GameLoop σ) (ds : List ℕ) : GameLoop σ :=
  ds.foldl GameLoop.add_accumulated_time g

/-- The `n`-fold application of the consumer's update, threading the mutated
consumer state (the result flag is ignored; used to describe the state after
`n` update calls). -/
def updN {σ εu εr : Type} (c : Consumer σ εu εr) : ℕ → σ → σ
  | 0, s => s
  | n + 1, s => updN c n (c.update s).2

/-- The counting consumer of the crate's unit tests (`struct State` in
`mod tests`, and `GameState` in `src/src/state.rs`): update and render each
increment a counter and never fail. -/
def countC : Consumer (ℕ × ℕ) Empty Empty :=
  { update := fun s => (Except.ok (), (s.1 + 1, s.2))
    render := fun s _ => (Except.ok (), (s.1, s.2 + 1)) }

/-- Observable events of a single step, for stating the call order. -/
inductive Ev where
  | upd : Ev
  | ren : Ev
deriving DecidableEq

/-- A consumer that records the sequence of calls made to it. -/
def traceC : Consumer (List Ev) Empty Empty :=
  { update := fun s => (Except.ok (), s ++ [Ev.upd])
    render := fun s _ => (Except.ok (), s ++ [Ev.ren]) }

/-- A consumer whose update fails on exactly its `k`-th invocation (counting
from state `(0, 0)`); state tracks (update invocations, render invocations). -/
def failAtC (k : ℕ) : Consumer (ℕ × ℕ) Unit Unit :=
  { update := fun s =>
      (if s.1 + 1 = k then Except.error () else Except.ok (), (s.1 + 1, s.2))
    render := fun s _ => (Except.ok (), (s.1, s.2 + 1)) }

/-- A consumer whose render always fails with the given error value. -/
def renderFailC (e : ℕ) : Consumer (ℕ × ℕ) Empty ℕ :=
  { update := fun s => (Except.ok (), (s.1 + 1, s.2))
    render := fun s _ => (Except.error e, s) }



/-- First scenario step of the crate's `test_game_loop_tick_drains_accumulated_time`
test: fresh driver, add 10 ms, step (all steps at one fixed timestamp, i.e. no
real time elapsing). -/
def step1 : Except (Error Empty Empty) Unit × GameLoop (ℕ × ℕ) :=
  ((GameLoop.new ((0, 0) : ℕ × ℕ)).add_accumulated_time 10000000).tick countC 0

/-- Second scenario step: add 6 ms more, step again. -/
def step2 : Except (Error Empty Empty) Unit × GameLoop (ℕ × ℕ) :=
  ((step1.2.add_accumulated_time 6000000)).tick countC 0

/-- Third scenario step: add 16 ms more, step again. -/
def step3 : Except (Error Empty Empty) Unit × GameLoop (ℕ × ℕ) :=
  ((step2.2.add_accumulated_time 16000000)).tick countC 0

/-! ## Structural lemmas about the drain loop -/

/-- If the drain loop completes without an update failure, the final consumer
state is `acc / interval` successive updates of the initial state and the
accumulator ends at `acc % interval`. -/
theorem drainAux_ok_inv {σ εu εr : Type} (c : Consumer σ εu εr)
    {interval : ℕ} (hi : 0 < interval) :
    ∀ (n : ℕ) (s : σ) (acc : ℕ), n = acc / interval →
    ∀ (u : Unit) (s' : σ) (a' : ℕ),
      drainAux c interval n s acc = (Except.ok u, s', a') →
      s' = updN c n s ∧ a' = acc % interval := by
  intro n
  induction n with
  | zero =>
    intro s acc hn u s' a' h
    have hlt : acc < interval := by
      by_contra hge
      have := Nat.div_pos (Nat.le_of_not_lt hge) hi
      omega
    simp only [drainAux, Prod.mk.injEq] at h
    exact ⟨h.2.1.symm, by rw [← h.2.2, Nat.mod_eq_of_lt hlt]⟩
  | succ n ih =>
    intro s acc hn u s' a' h
    simp only [drainAux] at h
    by_cases hle : interval ≤ acc
    · rw [if_pos hle] at h
      rcases hc : c.update s with ⟨res, s₂⟩
      rw [hc] at h
      cases res with
      | error e => simp at h
      | ok v =>
        have hsub : n = (acc - interval) / interval := by
          have := Nat.div_eq_sub_div hi hle
          omega
        have := ih s₂ (acc - interval) hsub u s' a' h
        refine ⟨?_, ?_⟩
        · rw [this.1]
          simp only [updN, hc]
        · rw [this.2, ← Nat.mod_eq_sub_mod hle]
    · rw [if_neg hle] at h
      have : acc / interval = 0 := Nat.div_eq_of_lt (Nat.lt_of_not_le hle)
      omega

/-- If the consumer's update operation never fails, the drain loop performs
exactly `acc / interval` updates and leaves `acc % interval` accumulated. -/
theorem drainAux_total_ok {σ εu εr : Type} (c : Consumer σ εu εr)
    {interval : ℕ} (hi : 0 < interval)
    (hok : ∀ s, (c.update s).1 = Except.ok ()) :
    ∀ (n : ℕ) (s : σ) (acc : ℕ), n = acc / interval →
      drainAux c interval n s acc = (Except.ok (), updN c n s, acc % interval) := by
  intro n
  induction n with
  | zero =>
    intro s acc hn
    have hlt : acc < interval := by
      by_contra hge
      have := Nat.div_pos (Nat.le_of_not_lt hge) hi
      omega
    simp only [drainAux, updN, Nat.mod_eq_of_lt hlt]
  | succ n ih =>
    intro s acc hn
    have hle : interval ≤ acc := by
      by_contra hgt
      have : acc / interval = 0 := Nat.div_eq_of_lt (Nat.lt_of_not_le hgt)
      omega
    rcases hc : c.update s with ⟨res, s₂⟩
    have hres : res = Except.ok () := by
      have := hok s
      rw [hc] at this
      exact this
    subst hres
    have hsub : n = (acc - interval) / interval := by
      have := Nat.div_eq_sub_div hi hle
      omega
    simp only [drainAux, if_pos hle, hc]
    rw [ih s₂ (acc - interval) hsub, ← Nat.mod_eq_sub_mod hle]
    simp only [updN, hc]

/-- Drain-loop behaviour of the consumer whose update fails on its `k`-th
invocation: when at least `k - u` more whole intervals are available from
update-counter `u < k`, the loop aborts at the failing call, having deducted
one interval for each of the completed (successful) updates only. -/
theorem drainAux_failAt {k interval : ℕ} (hi : 0 < interval) :
    ∀ (n u r acc : ℕ), n = acc / interval → u < k → k - u ≤ n →
      drainAux (failAtC k) interval n (u, r) acc =
        (Except.error (), (k, r), acc - (k - u - 1) * interval) := by
  intro n
  induction n with
  | zero =>
    intro u r acc hn hu hk
    omega
  | succ n ih =>
    intro u r acc hn hu hk
    have hle : interval ≤ acc := by
      by_contra hgt
      have : acc / interval = 0 := Nat.div_eq_of_lt (Nat.lt_of_not_le hgt)
      omega
    by_cases hfail : u + 1 = k
    · have hcu : (failAtC k).update (u, r) = (Except.error (), (u + 1, r)) := by
        simp [failAtC, hfail]
      have h0 : k - u - 1 = 0 := by omega
      simp only [drainAux, if_pos hle, hcu, h0, Nat.zero_mul, Nat.sub_zero, hfail]
    · have hcu : (failAtC k).update (u, r) = (Except.ok (), (u + 1, r)) := by
        simp [failAtC, hfail]
      have hsub : n = (acc - interval) / interval := by
        have := Nat.div_eq_sub_div hi hle
        omega
      have step := ih (u + 1) r (acc - interval) hsub (by omega) (by omega)
      have harith : acc - interval - (k - (u + 1) - 1) * interval =
          acc - (k - u - 1) * interval := by
        rw [Nat.sub_sub, Nat.add_comm interval, ← Nat.succ_mul]
        have : Nat.succ (k - (u + 1) - 1) = k - u - 1 := by omega
        rw [this]
      simp only [drainAux, if_pos hle, hcu]
      rw [step, harith]

/-- The counting consumer after `n` updates: the update counter advances by
`n`, the render counter is untouched. -/
theorem updN_count : ∀ (n u r : ℕ), updN countC n (u, r) = (u + n, r) := by
  intro n
  induction n with
  | zero => intro u r; simp [updN]
  | succ n ih =>
    intro u r
    have hcu : (countC.update (u, r)).2 = (u + 1, r) := rfl
    simp only [updN, hcu]
    rw [ih (u + 1) r]
    have : u + 1 + n = u + (n + 1) := by omega
    rw [this]

/-- The tracing consumer after `n` updates: `n` update events are appended. -/
theorem updN_trace : ∀ (n : ℕ) (s : List Ev),
    updN traceC n s = s ++ List.replicate n Ev.upd := by
  intro n
  induction n with
  | zero => intro s; simp [updN]
  | succ n ih =>
    intro s
    have hcu : (traceC.update s).2 = s ++ [Ev.upd] := rfl
    simp only [updN, hcu]
    rw [ih (s ++ [Ev.upd]), List.append_assoc, List.replicate_succ]
    simp

/-- A sequence of `add_accumulated_time` calls adds the sum of the durations
to the accumulator and changes nothing else. -/
theorem addMany_spec {σ : Type} : ∀ (ds : List ℕ) (g : GameLoop σ),
    (addMany g ds).accumulated_time = g.accumulated_time + ds.sum ∧
    (addMany g ds).state = g.state ∧
    (addMany g ds).update_interval = g.update_interval ∧
    (addMany g ds).previous_tick = g.previous_tick := by
  intro ds
  induction ds with
  | nil => intro g; simp [addMany]
  | cons d ds ih =>
    intro g
    obtain ⟨h1, h2, h3, h4⟩ := ih (g.add_accumulated_time d)
    simp only [addMany, List.foldl_cons] at h1 h2 h3 h4 ⊢
    refine ⟨?_, ?_, ?_, ?_⟩
    · rw [h1]
      simp [GameLoop.add_accumulated_time, List.sum_cons]
      omega
    · rw [h2]
      rfl
    · rw [h3]
      rfl
    · rw [h4]
      rfl

/-! ## Characterisation of `tick` by the outcomes of its two phases -/

/-- If the drain loop aborts with an update error, `tick` returns that error
tagged `Error.update`, keeps the consumer state and accumulator exactly as the
drain loop left them, and touches nothing else (render is never called). -/
theorem tick_eq_of_drain_error {σ εu εr : Type} (c : Consumer σ εu εr)
    (g : GameLoop σ) (now A : ℕ)
    (hA : A = g.accumulated_time + elapsedSince g.previous_tick now)
    (e : εu) (s' : σ) (a' : ℕ)
    (h : drain c g.state g.update_interval A = (Except.error e, s', a')) :
    g.tick c now =
      (Except.error (Error.update e),
       { g with state := s', accumulated_time := a' }) := by
  simp only [GameLoop.tick, ← hA, h]

/-- If the drain loop succeeds and the render call fails, `tick` returns the
render error tagged `Error.render`, with the consumer state as the failing
render left it, the drained accumulator, and `previous_tick` untouched. -/
theorem tick_eq_of_render_error {σ εu εr : Type} (c : Consumer σ εu εr)
    (g : GameLoop σ) (now A : ℕ)
    (hA : A = g.accumulated_time + elapsedSince g.previous_tick now)
    (u : Unit) (s' : σ) (a' : ℕ) (e : εr) (s'' : σ)
    (h : drain c g.state g.update_interval A = (Except.ok u, s', a'))
    (hr : c.render s' (remQ a' g.update_interval) = (Except.error e, s'')) :
    g.tick c now =
      (Except.error (Error.render e),
       { g with state := s'', accumulated_time := a' }) := by
  simp only [GameLoop.tick, ← hA, h, hr]

/-- If both phases succeed, `tick` succeeds, with the consumer state threaded
through drain and render, the drained accumulator, and `now` recorded as the
new `previous_tick`. -/
theorem tick_eq_of_ok {σ εu εr : Type} (c : Consumer σ εu εr)
    (g : GameLoop σ) (now A : ℕ)
    (hA : A = g.accumulated_time + elapsedSince g.previous_tick now)
    (u : Unit) (s' : σ) (a' : ℕ) (v : Unit) (s'' : σ)
    (h : drain c g.state g.update_interval A = (Except.ok u, s', a'))
    (hr : c.render s' (remQ a' g.update_interval) = (Except.ok v, s'')) :
    g.tick c now =
      (Except.ok (),
       { g with state := s'', accumulated_time := a',
                previous_tick := some now }) := by
  simp only [GameLoop.tick, ← hA, h, hr]

/-- A `tick` in which the consumer never fails: it performs
`floor(A / update_interval)` updates, renders once with the residue fraction,
and leaves `A mod update_interval` accumulated, where `A` is the accumulator
after the elapsed time is added. -/
theorem tick_total_ok {σ εu εr : Type} (c : Consumer σ εu εr)
    (hu : ∀ s, (c.update s).1 = Except.ok ())
    (hr : ∀ s q, (c.render s q).1 = Except.ok ())
    (g : GameLoop σ) (now A : ℕ)
    (hA : A = g.accumulated_time + elapsedSince g.previous_tick now)
    (hi : 0 < g.update_interval) :
    g.tick c now =
      (Except.ok (),
       { g with
         state := (c.render (updN c (A / g.update_interval) g.state)
                    (remQ (A % g.update_interval) g.update_interval)).2,
         accumulated_time := A % g.update_interval,
         previous_tick := some now }) := by
  have hd : drain c g.state g.update_interval A =
      (Except.ok (), updN c (A / g.update_interval) g.state,
       A % g.update_interval) :=
    drainAux_total_ok c hi hu (A / g.update_interval) g.state A rfl
  rcases hrc : c.render (updN c (A / g.update_interval) g.state)
      (remQ (A % g.update_interval) g.update_interval) with ⟨res, s''⟩
  have hres : res = Except.ok () := by
    have := hr (updN c (A / g.update_interval) g.state)
      (remQ (A % g.update_interval) g.update_interval)
    rw [hrc] at this
    exact this
  subst hres
  have key := tick_eq_of_ok c g now A hA () _ _ () s'' hd hrc
  exact key

/-- Inversion of a successful `tick`: the interval is untouched, `now` is
recorded, and the final driver state is obtained by a successful drain
followed by one successful render. -/
theorem tick_ok_inv {σ εu εr : Type} (c : Consumer σ εu εr) (g : GameLoop σ)
    (now : ℕ) (g' : GameLoop σ) (h : g.tick c now = (Except.ok (), g')) :
    g'.update_interval = g.update_interval ∧
    g'.previous_tick = some now ∧
    ∃ s' s'',
      drain c g.state g.update_interval
          (g.accumulated_time + elapsedSince g.previous_tick now) =
        (Except.ok (), s', g'.accumulated_time) ∧
      c.render s' (remQ g'.accumulated_time g.update_interval) =
        (Except.ok (), s'') ∧
      g'.state = s'' := by
  rcases hd : drain c g.state g.update_interval
      (g.accumulated_time + elapsedSince g.previous_tick now) with ⟨res, s', a'⟩
  cases res with
  | error e =>
    rw [tick_eq_of_drain_error c g now _ rfl e s' a' hd] at h
    simp at h
  | ok u =>
    cases u
    rcases hrc : c.render s' (remQ a' g.update_interval) with ⟨res2, s''⟩
    cases res2 with
    | error e =>
      rw [tick_eq_of_render_error c g now _ rfl () s' a' e s'' hd hrc] at h
      simp at h
    | ok v =>
      cases v
      rw [tick_eq_of_ok c g now _ rfl () s' a' () s'' hd hrc] at h
      simp only [Prod.mk.injEq, true_and] at h
      subst h
      exact ⟨rfl, rfl, s', s'', rfl, hrc, rfl⟩

/-- Inversion of a failing `tick`: `previous_tick` and `update_interval` are
left unchanged. -/
theorem tick_error_inv {σ εu εr : Type} (c : Consumer σ εu εr)
    (g : GameLoop σ) (now : ℕ) (g' : GameLoop σ) (err : Error εu εr)
    (h : g.tick c now = (Except.error err, g')) :
    g'.previous_tick = g.previous_tick ∧
    g'.update_interval = g.update_interval := by
  rcases hd : drain c g.state g.update_interval
      (g.accumulated_time + elapsedSince g.previous_tick now) with ⟨res, s', a'⟩
  cases res with
  | error e =>
    rw [tick_eq_of_drain_error c g now _ rfl e s' a' hd] at h
    simp only [Prod.mk.injEq, Except.error.injEq] at h
    rw [← h.2]
    exact ⟨rfl, rfl⟩
  | ok u =>
    cases u
    rcases hrc : c.render s' (remQ a' g.update_interval) with ⟨res2, s''⟩
    cases res2 with
    | error e =>
      rw [tick_eq_of_render_error c g now _ rfl () s' a' e s'' hd hrc] at h
      simp only [Prod.mk.injEq, Except.error.injEq] at h
      rw [← h.2]
      exact ⟨rfl, rfl⟩
    | ok v =>
      cases v
      rw [tick_eq_of_ok c g now _ rfl () s' a' () s'' hd hrc] at h
      simp at h

/-- The accessor on a valid state (`accumulated_time < update_interval`):
returns the exact ratio, which lies in `[0, 1)`. -/
theorem remainder_eq_some {σ : Type} (g : GameLoop σ)
    (h : g.accumulated_time < g.update_interval) :
    g.remainder = some (remQ g.accumulated_time g.update_interval) ∧
    0 ≤ remQ g.accumulated_time g.update_interval ∧
    remQ g.accumulated_time g.update_interval < 1 := by
  have hi : (0 : ℚ) < (g.update_interval : ℚ) := by
    have : 0 < g.update_interval := Nat.lt_of_le_of_lt (Nat.zero_le _) h
    exact_mod_cast this
  have h1 : 0 ≤ remQ g.accumulated_time g.update_interval := by
    unfold remQ
    positivity
  have h2 : remQ g.accumulated_time g.update_interval < 1 := by
    unfold remQ
    rw [div_lt_one hi]
    exact_mod_cast h
  refine ⟨?_, h1, h2⟩
  unfold GameLoop.remainder
  rw [if_pos ⟨h1, h2⟩]

/-- The accessor on an invalid state (`accumulated_time ≥ update_interval`
with a positive interval): the `debug_assert!` fires (modelled as `none`);
no value `≥ 1` is returned and nothing is clamped. -/
theorem remainder_eq_none {σ : Type} (g : GameLoop σ)
    (hi : 0 < g.update_interval)
    (h : g.update_interval ≤ g.accumulated_time) :
    g.remainder = none := by
  have hiq : (0 : ℚ) < (g.update_interval : ℚ) := by exact_mod_cast hi
  have h2 : ¬ remQ g.accumulated_time g.update_interval < 1 := by
    unfold remQ
    rw [not_lt, one_le_div hiq]
    exact_mod_cast h
  unfold GameLoop.remainder
  rw [if_neg]
  intro hcon
  exact h2 hcon.2

/-! ## The claims -/

/-- C7: for every consumer value, `GameLoop::new` produces a driver whose
`update_interval` is 1 second / 100 updates-per-second = 10 milliseconds
(10 000 000 ns), whose `accumulated_time` is zero, whose `previous_tick` is
`None`, and which owns exactly the given consumer value.  `new` is a total
function of the consumer value, so construction has no error conditions. -/
theorem new_initial_state {σ : Type} (s : σ) :
    (GameLoop.new s).update_interval = NANOSECONDS_PER_SECOND / 100 ∧
    (GameLoop.new s).update_interval = 10000000 ∧
    (GameLoop.new s).accumulated_time = 0 ∧
    (GameLoop.new s).previous_tick = none ∧
    (GameLoop.new s).state = s :=
  ⟨rfl, rfl, rfl, rfl, rfl⟩

/-- C10: `add_accumulated_time` adds exactly `d` to the accumulator and
changes nothing else: the owned consumer value, `previous_tick` and
`update_interval` are untouched.  The operation does not take the consumer's
operations as input at all, so neither update nor render can be invoked; the
unchanged `state` field witnesses that the consumer value is untouched. -/
theorem add_accumulated_time_spec {σ : Type} (g : GameLoop σ) (d : ℕ) :
    (g.add_accumulated_time d).accumulated_time = g.accumulated_time + d ∧
    (g.add_accumulated_time d).state = g.state ∧
    (g.add_accumulated_time d).previous_tick = g.previous_tick ∧
    (g.add_accumulated_time d).update_interval = g.update_interval :=
  ⟨rfl, rfl, rfl, rfl⟩

/-- C3: after every successful `tick` — for any consumer, any starting driver
state with a positive interval, and any elapsed time — the accumulator is
strictly below the interval, so the interpolation fraction is defined and lies
in `[0, 1)`. -/
theorem tick_ok_remainder_bounds {σ εu εr : Type} (c : Consumer σ εu εr)
    (g : GameLoop σ) (now : ℕ) (g' : GameLoop σ)
    (hi : 0 < g.update_interval)
    (h : g.tick c now = (Except.ok (), g')) :
    g'.accumulated_time < g'.update_interval ∧
    g'.remainder = some (remQ g'.accumulated_time g'.update_interval) ∧
    0 ≤ remQ g'.accumulated_time g'.update_interval ∧
    remQ g'.accumulated_time g'.update_interval < 1 := by
  obtain ⟨hui, hpt, s', s'', hd, hrc, hst⟩ := tick_ok_inv c g now g' h
  have hmod := drainAux_ok_inv c hi _ g.state _ rfl () s' g'.accumulated_time hd
  have hlt : g'.accumulated_time < g'.update_interval := by
    rw [hmod.2, hui]
    exact Nat.mod_lt _ hi
  exact ⟨hlt, remainder_eq_some g' hlt⟩

/-- C3 witness: a concrete successful step of a fresh driver. -/
theorem tick_ok_remainder_bounds_witness :
    0 < (GameLoop.new ((0, 0) : ℕ × ℕ)).update_interval ∧
    (GameLoop.new ((0, 0) : ℕ × ℕ)).tick countC 0 =
      (Except.ok (), ((GameLoop.new ((0, 0) : ℕ × ℕ)).tick countC 0).2) ∧
    (((GameLoop.new ((0, 0) : ℕ × ℕ)).tick countC 0).2.accumulated_time <
      ((GameLoop.new ((0, 0) : ℕ × ℕ)).tick countC 0).2.update_interval ∧
     ((GameLoop.new ((0, 0) : ℕ × ℕ)).tick countC 0).2.remainder =
      some (remQ ((GameLoop.new ((0, 0) : ℕ × ℕ)).tick countC 0).2.accumulated_time
        ((GameLoop.new ((0, 0) : ℕ × ℕ)).tick countC 0).2.update_interval) ∧
     0 ≤ remQ ((GameLoop.new ((0, 0) : ℕ × ℕ)).tick countC 0).2.accumulated_time
        ((GameLoop.new ((0, 0) : ℕ × ℕ)).tick countC 0).2.update_interval ∧
     remQ ((GameLoop.new ((0, 0) : ℕ × ℕ)).tick countC 0).2.accumulated_time
        ((GameLoop.new ((0, 0) : ℕ × ℕ)).tick countC 0).2.update_interval < 1) :=
  ⟨by decide, rfl,
   tick_ok_remainder_bounds countC (GameLoop.new ((0, 0) : ℕ × ℕ)) 0
     ((GameLoop.new ((0, 0) : ℕ × ℕ)).tick countC 0).2 (by decide) rfl⟩

/-- C5: the accessor returns `accumulated_time / update_interval` (it takes
the driver by shared reference, embedded as a pure function of the driver
state, so no driver state is mutated).  On every state with
`accumulated_time < update_interval` the returned value is in `[0, 1)`; on a
state with `accumulated_time ≥ update_interval` (positive interval) the
`debug_assert!` fires — modelled as `none` — instead of returning a value
`≥ 1` or clamping; in particular a fresh driver after adding one full 10 ms
interval, without stepping, fails that way. -/
theorem remainder_spec {σ : Type} (g : GameLoop σ) :
    (g.accumulated_time < g.update_interval →
      g.remainder = some (remQ g.accumulated_time g.update_interval) ∧
      0 ≤ remQ g.accumulated_time g.update_interval ∧
      remQ g.accumulated_time g.update_interval < 1) ∧
    (0 < g.update_interval → g.update_interval ≤ g.accumulated_time →
      g.remainder = none) ∧
    ((GameLoop.new ()).add_accumulated_time 10000000).remainder = none :=
  ⟨fun h => remainder_eq_some g h,
   fun hi h => remainder_eq_none g hi h,
   remainder_eq_none ((GameLoop.new ()).add_accumulated_time 10000000)
     (by decide) (by decide)⟩

/-- C5 witness: the 9 ms scenario, evaluated through the first branch. -/
theorem remainder_spec_witness :
    ((GameLoop.new ()).add_accumulated_time 9000000).accumulated_time <
      ((GameLoop.new ()).add_accumulated_time 9000000).update_interval ∧
    (((GameLoop.new ()).add_accumulated_time 9000000).remainder =
      some (remQ ((GameLoop.new ()).add_accumulated_time 9000000).accumulated_time
        ((GameLoop.new ()).add_accumulated_time 9000000).update_interval) ∧
     0 ≤ remQ ((GameLoop.new ()).add_accumulated_time 9000000).accumulated_time
        ((GameLoop.new ()).add_accumulated_time 9000000).update_interval ∧
     remQ ((GameLoop.new ()).add_accumulated_time 9000000).accumulated_time
        ((GameLoop.new ()).add_accumulated_time 9000000).update_interval < 1) :=
  ⟨by decide,
   (remainder_spec ((GameLoop.new ()).add_accumulated_time 9000000)).1 (by decide)⟩

/-- C9: `tick` records the step's start timestamp as the new `previous_tick`
exactly when both phases succeed; any failing step leaves `previous_tick`
unchanged; and `update_interval` is unchanged by `tick` in every case. -/
theorem tick_previous_tick_spec {σ εu εr : Type} (c : Consumer σ εu εr)
    (g : GameLoop σ) (now : ℕ) :
    (∀ g', g.tick c now = (Except.ok (), g') → g'.previous_tick = some now) ∧
    (∀ err g', g.tick c now = (Except.error err, g') →
      g'.previous_tick = g.previous_tick) ∧
    (∀ r g', g.tick c now = (r, g') → g'.update_interval = g.update_interval) := by
  refine ⟨?_, ?_, ?_⟩
  · intro g' h
    exact (tick_ok_inv c g now g' h).2.1
  · intro err g' h
    exact (tick_error_inv c g now g' err h).1
  · intro r g' h
    cases r with
    | ok u =>
      cases u
      exact (tick_ok_inv c g now g' h).1
    | error err =>
      exact (tick_error_inv c g now g' err h).2

/-- C9 witness: a concrete successful step records its timestamp. -/
theorem tick_previous_tick_spec_witness :
    (GameLoop.new ((0, 0) : ℕ × ℕ)).tick countC 7 =
      (Except.ok (), ((GameLoop.new ((0, 0) : ℕ × ℕ)).tick countC 7).2) ∧
    ((GameLoop.new ((0, 0) : ℕ × ℕ)).tick countC 7).2.previous_tick = some 7 :=
  ⟨rfl,
   (tick_previous_tick_spec countC (GameLoop.new ((0, 0) : ℕ × ℕ)) 7).1
     ((GameLoop.new ((0, 0) : ℕ × ℕ)).tick countC 7).2 rfl⟩

/-- C6: a render failure aborts the step and is returned tagged
`Error.render`; an update failure is returned tagged `Error.update`; in both
cases the consumer-supplied error value is wrapped unchanged; and conversely
every failing step returns exactly one of these two wrapped consumer errors —
`tick` never produces an error of its own. -/
theorem tick_error_wraps_consumer_error {σ εu εr : Type}
    (c : Consumer σ εu εr) (g : GameLoop σ) (now : ℕ) :
    (∀ (s' : σ) (a' : ℕ) (e : εr) (s'' : σ),
      drain c g.state g.update_interval
          (g.accumulated_time + elapsedSince g.previous_tick now) =
        (Except.ok (), s', a') →
      c.render s' (remQ a' g.update_interval) = (Except.error e, s'') →
      g.tick c now = (Except.error (Error.render e),
        { g with state := s'', accumulated_time := a' })) ∧
    (∀ (e : εu) (s' : σ) (a' : ℕ),
      drain c g.state g.update_interval
          (g.accumulated_time + elapsedSince g.previous_tick now) =
        (Except.error e, s', a') →
      g.tick c now = (Except.error (Error.update e),
        { g with state := s', accumulated_time := a' })) ∧
    (∀ (err : Error εu εr) (g' : GameLoop σ),
      g.tick c now = (Except.error err, g') →
      (∃ e s' a',
        drain c g.state g.update_interval
            (g.accumulated_time + elapsedSince g.previous_tick now) =
          (Except.error e, s', a') ∧ err = Error.update e) ∨
      (∃ s' a' e s'',
        drain c g.state g.update_interval
            (g.accumulated_time + elapsedSince g.previous_tick now) =
          (Except.ok (), s', a') ∧
        c.render s' (remQ a' g.update_interval) = (Except.error e, s'') ∧
        err = Error.render e)) := by
  refine ⟨?_, ?_, ?_⟩
  · intro s' a' e s'' hd hrc
    exact tick_eq_of_render_error c g now _ rfl () s' a' e s'' hd hrc
  · intro e s' a' hd
    exact tick_eq_of_drain_error c g now _ rfl e s' a' hd
  · intro err g' h
    rcases hd : drain c g.state g.update_interval
        (g.accumulated_time + elapsedSince g.previous_tick now) with ⟨res, s', a'⟩
    cases res with
    | error e =>
      rw [tick_eq_of_drain_error c g now _ rfl e s' a' hd] at h
      simp only [Prod.mk.injEq, Except.error.injEq] at h
      exact Or.inl ⟨e, s', a', rfl, h.1.symm⟩
    | ok u =>
      cases u
      rcases hrc : c.render s' (remQ a' g.update_interval) with ⟨res2, s''⟩
      cases res2 with
      | error e =>
        rw [tick_eq_of_render_error c g now _ rfl () s' a' e s'' hd hrc] at h
        simp only [Prod.mk.injEq, Except.error.injEq] at h
        exact Or.inr ⟨s', a', e, s'', rfl, hrc, h.1.symm⟩
      | ok v =>
        cases v
        rw [tick_eq_of_ok c g now _ rfl () s' a' () s'' hd hrc] at h
        simp at h

/-- C6 witness: a consumer whose render fails with error value 42 on a fresh
driver; the step returns exactly `Error.render 42`. -/
theorem tick_error_wraps_consumer_error_witness :
    drain (renderFailC 42) (GameLoop.new ((0, 0) : ℕ × ℕ)).state
        (GameLoop.new ((0, 0) : ℕ × ℕ)).update_interval
        ((GameLoop.new ((0, 0) : ℕ × ℕ)).accumulated_time +
          elapsedSince (GameLoop.new ((0, 0) : ℕ × ℕ)).previous_tick 0) =
      (Except.ok (), ((0, 0) : ℕ × ℕ), 0) ∧
    (renderFailC 42).render ((0, 0) : ℕ × ℕ)
        (remQ 0 (GameLoop.new ((0, 0) : ℕ × ℕ)).update_interval) =
      (Except.error 42, ((0, 0) : ℕ × ℕ)) ∧
    (GameLoop.new ((0, 0) : ℕ × ℕ)).tick (renderFailC 42) 0 =
      (Except.error (Error.render 42),
       { GameLoop.new ((0, 0) : ℕ × ℕ) with
         state := ((0, 0) : ℕ × ℕ), accumulated_time := 0 }) :=
  ⟨rfl, rfl,
   (tick_error_wraps_consumer_error (renderFailC 42)
       (GameLoop.new ((0, 0) : ℕ × ℕ)) 0).1 ((0, 0) : ℕ × ℕ) 0 42
     ((0, 0) : ℕ × ℕ) rfl rfl⟩

/-- C1: from any driver with the constructed interval, fresh counters, an
arbitrary starting accumulator `T_start = g.accumulated_time` and no real time
elapsing (`elapsedSince … = 0`), any sequence of `add_accumulated_time` calls
summing to `T = ds.sum` followed by one `step` succeeds, invokes update
exactly `⌊(T_start + T) / update_interval⌋` times, and leaves
`(T_start + T) mod update_interval` accumulated. -/
theorem step_drains_accumulator (g : GameLoop (ℕ × ℕ)) (ds : List ℕ) (now : ℕ)
    (hstate : g.state = (0, 0))
    (hui : g.update_interval = NANOSECONDS_PER_SECOND / 100)
    (h0 : elapsedSince g.previous_tick now = 0) :
    ∃ g', (addMany g ds).tick countC now = (Except.ok (), g') ∧
      g'.state.1 = (g.accumulated_time + ds.sum) / (NANOSECONDS_PER_SECOND / 100) ∧
      g'.accumulated_time =
        (g.accumulated_time + ds.sum) % (NANOSECONDS_PER_SECOND / 100) := by
  obtain ⟨ha, hs, hui2, hpt⟩ := addMany_spec ds g
  have hipos : 0 < (addMany g ds).update_interval := by
    rw [hui2, hui]
    decide
  have hA : g.accumulated_time + ds.sum =
      (addMany g ds).accumulated_time +
        elapsedSince (addMany g ds).previous_tick now := by
    rw [ha, hpt, h0]
    omega
  have key := tick_total_ok countC (fun s => rfl) (fun s q => rfl)
    (addMany g ds) now (g.accumulated_time + ds.sum) hA hipos
  refine ⟨_, key, ?_, ?_⟩
  · show ((countC.render
      (updN countC ((g.accumulated_time + ds.sum) / (addMany g ds).update_interval)
        (addMany g ds).state)
      (remQ ((g.accumulated_time + ds.sum) % (addMany g ds).update_interval)
        (addMany g ds).update_interval)).2).1 =
      (g.accumulated_time + ds.sum) / (NANOSECONDS_PER_SECOND / 100)
    rw [hui2, hui, hs, hstate, updN_count]
    show 0 + (g.accumulated_time + ds.sum) / (NANOSECONDS_PER_SECOND / 100) =
      (g.accumulated_time + ds.sum) / (NANOSECONDS_PER_SECOND / 100)
    omega
  · show (g.accumulated_time + ds.sum) % (addMany g ds).update_interval =
      (g.accumulated_time + ds.sum) % (NANOSECONDS_PER_SECOND / 100)
    rw [hui2, hui]

/-- C1 witness: `T_start = 4 ms` already accumulated, adds of 10 ms and 8 ms:
the single step runs update twice and leaves 2 ms accumulated. -/
theorem step_drains_accumulator_witness :
    ({ GameLoop.new ((0, 0) : ℕ × ℕ) with
       accumulated_time := 4000000 } : GameLoop (ℕ × ℕ)).state = (0, 0) ∧
    ({ GameLoop.new ((0, 0) : ℕ × ℕ) with
       accumulated_time := 4000000 } : GameLoop (ℕ × ℕ)).update_interval =
      NANOSECONDS_PER_SECOND / 100 ∧
    elapsedSince ({ GameLoop.new ((0, 0) : ℕ × ℕ) with
       accumulated_time := 4000000 } : GameLoop (ℕ × ℕ)).previous_tick 0 = 0 ∧
    ∃ g', (addMany ({ GameLoop.new ((0, 0) : ℕ × ℕ) with
             accumulated_time := 4000000 }) [10000000, 8000000]).tick countC 0 =
        (Except.ok (), g') ∧
      g'.state.1 = (4000000 + [10000000, 8000000].sum) /
        (NANOSECONDS_PER_SECOND / 100) ∧
      g'.accumulated_time = (4000000 + [10000000, 8000000].sum) %
        (NANOSECONDS_PER_SECOND / 100) :=
  ⟨rfl, rfl, rfl,
   step_drains_accumulator
     ({ GameLoop.new ((0, 0) : ℕ × ℕ) with accumulated_time := 4000000 })
     [10000000, 8000000] 0 rfl rfl rfl⟩

/-- C2: if the consumer's update fails on its `k`-th invocation within a
single step (`k ≥ 1`, reachable because at least `k` whole intervals are
accumulated and no real time elapses), the step aborts immediately with the
failure tagged `Error.update`, render is never invoked (the consumer's render
counter stays 0 while its update counter shows `k` invocations), and the
accumulator has been decremented by exactly `(k-1) * update_interval` — no
deduction for the failing iteration. -/
theorem step_update_failure (k : ℕ) (g : GameLoop (ℕ × ℕ)) (now : ℕ)
    (hk : 1 ≤ k)
    (hstate : g.state = (0, 0))
    (hui : g.update_interval = NANOSECONDS_PER_SECOND / 100)
    (h0 : elapsedSince g.previous_tick now = 0)
    (hreach : k * g.update_interval ≤ g.accumulated_time) :
    g.tick (failAtC k) now =
      (Except.error (Error.update ()),
       { g with state := (k, 0),
                accumulated_time :=
                  g.accumulated_time - (k - 1) * g.update_interval }) := by
  have hipos : 0 < g.update_interval := by
    rw [hui]
    decide
  have hd : drain (failAtC k) g.state g.update_interval
      (g.accumulated_time + elapsedSince g.previous_tick now) =
      (Except.error (), (k, 0),
       g.accumulated_time - (k - 1) * g.update_interval) := by
    rw [hstate, h0]
    unfold drain
    have hdiv : k ≤ (g.accumulated_time + 0) / g.update_interval := by
      rw [Nat.le_div_iff_mul_le hipos]
      omega
    have := @drainAux_failAt k g.update_interval hipos
      ((g.accumulated_time + 0) / g.update_interval) 0 0
      (g.accumulated_time + 0) rfl (by omega) (by omega)
    rw [this]
    rfl
  exact tick_eq_of_drain_error (failAtC k) g now _ rfl () (k, 0)
    (g.accumulated_time - (k - 1) * g.update_interval) hd

/-- C2 witness: 25 ms accumulated, update fails on its 2nd invocation: one
interval deducted, state shows 2 update calls and no render. -/
theorem step_update_failure_witness :
    1 ≤ 2 ∧
    ({ GameLoop.new ((0, 0) : ℕ × ℕ) with
       accumulated_time := 25000000 } : GameLoop (ℕ × ℕ)).state = (0, 0) ∧
    ({ GameLoop.new ((0, 0) : ℕ × ℕ) with
       accumulated_time := 25000000 } : GameLoop (ℕ × ℕ)).update_interval =
      NANOSECONDS_PER_SECOND / 100 ∧
    elapsedSince ({ GameLoop.new ((0, 0) : ℕ × ℕ) with
       accumulated_time := 25000000 } : GameLoop (ℕ × ℕ)).previous_tick 0 = 0 ∧
    2 * ({ GameLoop.new ((0, 0) : ℕ × ℕ) with
       accumulated_time := 25000000 } : GameLoop (ℕ × ℕ)).update_interval ≤
      ({ GameLoop.new ((0, 0) : ℕ × ℕ) with
       accumulated_time := 25000000 } : GameLoop (ℕ × ℕ)).accumulated_time ∧
    ({ GameLoop.new ((0, 0) : ℕ × ℕ) with
       accumulated_time := 25000000 } : GameLoop (ℕ × ℕ)).tick (failAtC 2) 0 =
      (Except.error (Error.update ()),
       { ({ GameLoop.new ((0, 0) : ℕ × ℕ) with
            accumulated_time := 25000000 } : GameLoop (ℕ × ℕ)) with
         state := (2, 0),
         accumulated_time := 25000000 -
           (2 - 1) * ({ GameLoop.new ((0, 0) : ℕ × ℕ) with
             accumulated_time := 25000000 } : GameLoop (ℕ × ℕ)).update_interval }) :=
  ⟨by decide, rfl, rfl, rfl, by decide,
   step_update_failure 2
     ({ GameLoop.new ((0, 0) : ℕ × ℕ) with accumulated_time := 25000000 })
     0 (by decide) rfl rfl rfl (by decide)⟩

/-- C4: every successful step invokes the consumer's operations in exactly
the order: update `k` times (`k` = whole intervals accumulated), then render
exactly once on the `k`-times-updated state, then returns — the final
consumer state is literally one render applied after the updates.  In
particular (second conjunct) a step of a fresh driver, observed by a
call-recording consumer, performs zero updates and exactly one render. -/
theorem tick_call_order {σ εu εr : Type} (c : Consumer σ εu εr)
    (g : GameLoop σ) (now : ℕ) (g' : GameLoop σ)
    (hi : 0 < g.update_interval)
    (h : g.tick c now = (Except.ok (), g')) :
    (∃ k, k = (g.accumulated_time + elapsedSince g.previous_tick now) /
        g.update_interval ∧
      g'.state = (c.render (updN c k g.state)
        (remQ ((g.accumulated_time + elapsedSince g.previous_tick now) %
          g.update_interval) g.update_interval)).2) ∧
    (∀ t : ℕ, ∃ gt, (GameLoop.new ([] : List Ev)).tick traceC t =
        (Except.ok (), gt) ∧ gt.state = [Ev.ren]) := by
  obtain ⟨hui, hpt, s', s'', hd, hrc, hst⟩ := tick_ok_inv c g now g' h
  have hinv := drainAux_ok_inv c hi _ g.state _ rfl () s' g'.accumulated_time hd
  refine ⟨⟨_, rfl, ?_⟩, ?_⟩
  · rw [hst]
    have hs2 : s'' = (c.render s'
        (remQ g'.accumulated_time g.update_interval)).2 := by
      rw [hrc]
    rw [hs2, hinv.1, hinv.2]
  · intro t
    have key := tick_total_ok traceC (fun s => rfl) (fun s q => rfl)
      (GameLoop.new ([] : List Ev)) t 0 rfl (by decide)
    exact ⟨_, key, rfl⟩

/-- C4 witness: a driver with 22 ms accumulated steps successfully; the
conclusion instantiates with `k = 2` updates before the single render. -/
theorem tick_call_order_witness :
    0 < ((GameLoop.new ((0, 0) : ℕ × ℕ)).add_accumulated_time
      22000000).update_interval ∧
    ((GameLoop.new ((0, 0) : ℕ × ℕ)).add_accumulated_time 22000000).tick countC 0 =
      (Except.ok (),
       (((GameLoop.new ((0, 0) : ℕ × ℕ)).add_accumulated_time
         22000000).tick countC 0).2) ∧
    ((∃ k, k = (((GameLoop.new ((0, 0) : ℕ × ℕ)).add_accumulated_time
          22000000).accumulated_time +
        elapsedSince (((GameLoop.new ((0, 0) : ℕ × ℕ)).add_accumulated_time
          22000000)).previous_tick 0) /
        (((GameLoop.new ((0, 0) : ℕ × ℕ)).add_accumulated_time
          22000000)).update_interval ∧
      ((((GameLoop.new ((0, 0) : ℕ × ℕ)).add_accumulated_time
          22000000).tick countC 0).2).state =
        (countC.render (updN countC k (((GameLoop.new ((0, 0) : ℕ × ℕ)).add_accumulated_time
          22000000)).state)
          (remQ (((((GameLoop.new ((0, 0) : ℕ × ℕ)).add_accumulated_time
            22000000)).accumulated_time +
            elapsedSince (((GameLoop.new ((0, 0) : ℕ × ℕ)).add_accumulated_time
              22000000)).previous_tick 0) %
            (((GameLoop.new ((0, 0) : ℕ × ℕ)).add_accumulated_time
              22000000)).update_interval)
            (((GameLoop.new ((0, 0) : ℕ × ℕ)).add_accumulated_time
              22000000)).update_interval)).2) ∧
     (∀ t : ℕ, ∃ gt, (GameLoop.new ([] : List Ev)).tick traceC t =
        (Except.ok (), gt) ∧ gt.state = [Ev.ren])) :=
  ⟨by decide, rfl,
   tick_call_order countC
     ((GameLoop.new ((0, 0) : ℕ × ℕ)).add_accumulated_time 22000000) 0
     ((((GameLoop.new ((0, 0) : ℕ × ℕ)).add_accumulated_time
       22000000).tick countC 0).2) (by decide) rfl⟩

/-- C8: the crate's deterministic test scenarios (no real time elapsing):
add 10 ms + step → 1 update, remainder 0.0; add 6 ms + step → still 1 update,
remainder 0.6; add 16 ms + step → 3 updates total, remainder 0.2; and a fresh
driver after adding 9 ms, without stepping, has interpolation fraction 0.9. -/
theorem test_scenarios :
    step1.1 = Except.ok () ∧ step1.2.state.1 = 1 ∧
      step1.2.remainder = some 0 ∧
    step2.1 = Except.ok () ∧ step2.2.state.1 = 1 ∧
      step2.2.remainder = some (0.6 : ℚ) ∧
    step3.1 = Except.ok () ∧ step3.2.state.1 = 3 ∧
      step3.2.remainder = some (0.2 : ℚ) ∧
    ((GameLoop.new ((0, 0) : ℕ × ℕ)).add_accumulated_time 9000000).remainder =
      some (0.9 : ℚ) := by
  have h1 : step1 = (Except.ok (),
      { state := (1, 1), update_interval := 10000000,
        previous_tick := some 0, accumulated_time := 0 }) := rfl
  have h2 : step2 = (Except.ok (),
      { state := (1, 2), update_interval := 10000000,
        previous_tick := some 0, accumulated_time := 6000000 }) := rfl
  have h3 : step3 = (Except.ok (),
      { state := (3, 3), update_interval := 10000000,
        previous_tick := some 0, accumulated_time := 2000000 }) := rfl
  refine ⟨by rw [h1], by rw [h1], ?_, by rw [h2], by rw [h2], ?_,
    by rw [h3], by rw [h3], ?_, ?_⟩
  · rw [h1, (remainder_eq_some _ (by decide)).1]
    norm_num [remQ]
  · rw [h2, (remainder_eq_some _ (by decide)).1]
    norm_num [remQ]
  · rw [h3, (remainder_eq_some _ (by decide)).1]
    norm_num [remQ]
  · have h4 : (GameLoop.new ((0, 0) : ℕ × ℕ)).add_accumulated_time 9000000 =
        { state := (0, 0), update_interval := 10000000,
          previous_tick := none, accumulated_time := 9000000 } := rfl
    rw [h4, (remainder_eq_some _ (by decide)).1]
    norm_num [remQ]
